import Mathlib

/-!
Verification of the SGX quote decoder from `src/provers/sgx/prover/src/sgx_register_utils.rs`.

The Rust decoder interprets a hex-encoded attestation quote: a 48-byte header,
a 384-byte enclave report, and a variable-length authentication-data section
with an embedded PEM certificate bundle.  Bytes are modelled as `Nat` (values
below 256 in the real domain); Rust slice indexing panics, assertion failures
and unwraps are modelled as `Except` errors classified by the error taxonomy
of the specification (`TruncatedInput`, `LengthMismatch`, ...).

The external `pem` crate's `parse_many` is abstracted as a function parameter
(the repository code only inspects the count of parsed blocks and their
decoded contents); the external `hex` crate's decode is modelled from the
spec.  Everything else is translated directly from the Rust source.
-/

namespace SgxQuote

deriving instance DecidableEq for Except

/-- Error kinds of the specification's error taxonomy (§7).  Rust panics at
slice indexing are `truncatedInput`; the length `assert_eq!` in `parse_quote`
is `lengthMismatch`; the certificate-count assert and `parse_many` unwrap are
`certificateChainError`; the length assert in `little_endian_decode` is
`inputTooLong`; hex decoding failure is `invalidHex`. -/
inductive DecodeError where
  | invalidHex
  | truncatedInput
  | lengthMismatch
  | certificateChainError
  | inputTooLong
deriving DecidableEq

/-- Rust slice `&q[a..b]`: the bytes of `q` from index `a` (inclusive) to `b`
(exclusive).  Total here; every use site checks the Rust panic condition
`a ≤ b ∧ b ≤ q.length` explicitly and fails with `truncatedInput` otherwise. -/
def seg (q : List Nat) (a b : Nat) : List Nat :=
  (q.drop a).take (b - a)

/-- `Header` struct: seven raw byte fields, no integer decoding. -/
structure Header where
  version : List Nat
  attestationKeyType : List Nat
  teeType : List Nat
  qeSvn : List Nat
  pceSvn : List Nat
  qeVendorId : List Nat
  userData : List Nat
deriving DecidableEq

/-- `EnclaveReport` struct: raw byte fields except the two little-endian
decoded 16-bit fields `isvProdId` and `isvSvn`. -/
structure EnclaveReport where
  cpuSvn : List Nat
  miscSelect : List Nat
  reserved1 : List Nat
  attributes : List Nat
  mrEnclave : List Nat
  reserved2 : List Nat
  mrSigner : List Nat
  reserved3 : List Nat
  isvProdId : Nat
  isvSvn : Nat
  reserved4 : List Nat
  reportData : List Nat
deriving DecidableEq

/-- `QEAuthData` struct: a length-prefixed raw payload. -/
structure QEAuthData where
  parsedDataSize : Nat
  data : List Nat
deriving DecidableEq

/-- `CertificationData` struct: certificate type, declared bundle size, and
the three base64-decoded certificates. -/
structure CertificationData where
  certType : Nat
  certDataSize : Nat
  decodedCertDataArray : List (List Nat)
deriving DecidableEq

/-- `ECDSAQuoteV3AuthData` struct. -/
structure ECDSAQuoteV3AuthData where
  ecdsa256BitSignature : List Nat
  ecdsaAttestationKey : List Nat
  pckSignedQeReport : EnclaveReport
  qeReportSignature : List Nat
  qeAuthData : QEAuthData
  certification : CertificationData
deriving DecidableEq

/-- `ParsedV3QuoteStruct`: the top-level decode result. -/
structure ParsedV3QuoteStruct where
  header : Header
  localEnclaveReport : EnclaveReport
  v3AuthData : ECDSAQuoteV3AuthData
deriving DecidableEq

/-- A PEM block as produced by the external `pem` crate: only its
base64-decoded contents are inspected by the repository code. -/
structure Pem where
  contents : List Nat
deriving DecidableEq

/-- Type of the external `pem::parse_many`, abstracted as a parameter: it maps
a byte blob to a list of parsed PEM blocks or a parse error. -/
abbrev ParseMany := List Nat → Except Unit (List Pem)

/-- The nibble-splitting accumulation loop of `little_endian_decode`: `i` is
the `enumerate` index, and each byte contributes
`(byte % 16) * 16 ^ (2 i) + (byte / 16) * 16 ^ (2 i + 1)`. -/
def leGo : Nat → List Nat → Nat
  | _, [] => 0
  | i, byte :: rest =>
    (byte % 16) * 16 ^ (2 * i) + (byte / 16) * 16 ^ (2 * i + 1) + leGo (i + 1) rest

/-- `little_endian_decode`: asserts the input has at most 8 bytes (modelled as
`inputTooLong`), then accumulates the nibble-split little-endian sum. -/
def little_endian_decode (encoded : List Nat) : Except DecodeError Nat :=
  if encoded.length ≤ 8 then .ok (leGo 0 encoded) else .error .inputTooLong

/-- The standard little-endian value of a byte string: byte at index 0 is
least significant, so the value is the sum of `byte[i] * 256 ^ i`. -/
def leSpec : List Nat → Nat
  | [] => 0
  | byte :: rest => byte + 256 * leSpec rest

/-- `parse_quote_header`: asserts `quote_bytes.len() > 48` (the assert message
says "at least 48"), then slices the seven header fields. -/
def parse_quote_header (quote_bytes : List Nat) : Except DecodeError Header :=
  if 48 < quote_bytes.length then
    .ok { version := seg quote_bytes 0 2
        , attestationKeyType := seg quote_bytes 2 4
        , teeType := seg quote_bytes 4 8
        , qeSvn := seg quote_bytes 8 10
        , pceSvn := seg quote_bytes 10 12
        , qeVendorId := seg quote_bytes 12 28
        , userData := seg quote_bytes 28 48 }
  else .error .truncatedInput

/-- `parse_quote_enclave_report`: slices the fixed offset table up to offset
384 (each Rust slice panics when its end exceeds the input, so the combined
panic condition of the twelve slices is `length < 384`), little-endian
decoding only `isvProdId` and `isvSvn` with an `as u16` narrowing. -/
def parse_quote_enclave_report (enclave_report_bytes : List Nat) :
    Except DecodeError EnclaveReport :=
  if 384 ≤ enclave_report_bytes.length then
    match little_endian_decode (seg enclave_report_bytes 256 258),
          little_endian_decode (seg enclave_report_bytes 258 260) with
    | .ok isv_prod_id, .ok isv_svn =>
      .ok { cpuSvn := seg enclave_report_bytes 0 16
          , miscSelect := seg enclave_report_bytes 16 20
          , reserved1 := seg enclave_report_bytes 20 48
          , attributes := seg enclave_report_bytes 48 64
          , mrEnclave := seg enclave_report_bytes 64 96
          , reserved2 := seg enclave_report_bytes 96 128
          , mrSigner := seg enclave_report_bytes 128 160
          , reserved3 := seg enclave_report_bytes 160 256
          , isvProdId := isv_prod_id % 65536
          , isvSvn := isv_svn % 65536
          , reserved4 := seg enclave_report_bytes 260 320
          , reportData := seg enclave_report_bytes 320 384 }
    | .error e, _ => .error e
    | _, .error e => .error e
  else .error .truncatedInput

/-- `parse_cerification_chain_bytes`: runs the external PEM parser, unwraps
(parse failure and a block count other than 3 are `certificateChainError`),
and collects the decoded contents of the three blocks in input order. -/
def parse_cerification_chain_bytes (parse_many : ParseMany) (pem_bytes : List Nat) :
    Except DecodeError (List (List Nat)) :=
  match parse_many pem_bytes with
  | .error _ => .error .certificateChainError
  | .ok pems =>
    if pems.length = 3 then .ok (pems.map Pem.contents)
    else .error .certificateChainError

/-- `parse_quote_auth_data`: reads `parsedDataSize` at `[576,578)`, the
variable QE auth-data payload, then `certType`, `certDataSize` and the
certificate bundle at the running offset, then the fixed sections
`[0,64) [64,128) [128,512) [512,576)`.  Each Rust slice's panic condition is
checked in source order. -/
def parse_quote_auth_data (parse_many : ParseMany) (quote_bytes : List Nat) :
    Except DecodeError ECDSAQuoteV3AuthData :=
  if 578 ≤ quote_bytes.length then
    match little_endian_decode (seg quote_bytes 576 578) with
    | .error e => .error e
    | .ok parsed_data_size =>
      if 578 + parsed_data_size ≤ quote_bytes.length then
        if 578 + parsed_data_size + 2 ≤ quote_bytes.length then
          match little_endian_decode
              (seg quote_bytes (578 + parsed_data_size) (578 + parsed_data_size + 2)) with
          | .error e => .error e
          | .ok cert_type =>
            if 578 + parsed_data_size + 6 ≤ quote_bytes.length then
              match little_endian_decode
                  (seg quote_bytes (578 + parsed_data_size + 2) (578 + parsed_data_size + 6)) with
              | .error e => .error e
              | .ok cert_data_size =>
                if 578 + parsed_data_size + 6 + cert_data_size ≤ quote_bytes.length then
                  match parse_cerification_chain_bytes parse_many
                      (seg quote_bytes (578 + parsed_data_size + 6)
                        (578 + parsed_data_size + 6 + cert_data_size)) with
                  | .error e => .error e
                  | .ok decoded_cert_data_array =>
                    match parse_quote_enclave_report (seg quote_bytes 128 512) with
                    | .error e => .error e
                    | .ok pck_signed_qe_report =>
                      .ok { ecdsa256BitSignature := seg quote_bytes 0 64
                          , ecdsaAttestationKey := seg quote_bytes 64 128
                          , pckSignedQeReport := pck_signed_qe_report
                          , qeReportSignature := seg quote_bytes 512 576
                          , qeAuthData :=
                              { parsedDataSize := parsed_data_size % 65536
                              , data := seg quote_bytes 578 (578 + parsed_data_size) }
                          , certification :=
                              { certType := cert_type % 65536
                              , certDataSize := cert_data_size % 4294967296
                              , decodedCertDataArray := decoded_cert_data_array } }
                else .error .truncatedInput
            else .error .truncatedInput
        else .error .truncatedInput
      else .error .truncatedInput
  else .error .truncatedInput

/-- The byte-level body of `parse_quote` (after hex decoding): header, local
enclave report at `[48,432)`, the declared auth-data size at `[432,436)`, the
`assert_eq!` length-consistency check, then the auth-data section. -/
def parse_quote_bytes (parse_many : ParseMany) (quote_bytes : List Nat) :
    Except DecodeError ParsedV3QuoteStruct :=
  match parse_quote_header quote_bytes with
  | .error e => .error e
  | .ok header =>
    if 432 ≤ quote_bytes.length then
      match parse_quote_enclave_report (seg quote_bytes 48 432) with
      | .error e => .error e
      | .ok local_enclave_report =>
        if 436 ≤ quote_bytes.length then
          match little_endian_decode (seg quote_bytes 432 436) with
          | .error e => .error e
          | .ok local_auth_data_size =>
            if quote_bytes.length - 436 = local_auth_data_size then
              match parse_quote_auth_data parse_many (quote_bytes.drop 436) with
              | .error e => .error e
              | .ok v3_auth_data =>
                .ok { header := header
                    , localEnclaveReport := local_enclave_report
                    , v3AuthData := v3_auth_data }
            else .error .lengthMismatch
        else .error .truncatedInput
    else .error .truncatedInput

/-- Modelled from the spec: the value of one hex digit character (the hex
decoding itself lives in the external `hex` crate; spec §4.6 step 1 and §7,
`InvalidHex`). -/
def hexDigitVal (c : Char) : Except DecodeError Nat :=
  if '0' ≤ c ∧ c ≤ '9' then .ok (c.toNat - '0'.toNat)
  else if 'a' ≤ c ∧ c ≤ 'f' then .ok (c.toNat - 'a'.toNat + 10)
  else if 'A' ≤ c ∧ c ≤ 'F' then .ok (c.toNat - 'A'.toNat + 10)
  else .error .invalidHex

/-- Modelled from the spec: `hex::decode` on the character list — pairs of hex
digits become bytes, an odd length or a non-hex character fails with
`InvalidHex` (spec §4.6 step 1, §6: a hex string with no prefix assumed). -/
def hexDecodeChars : List Char → Except DecodeError (List Nat)
  | [] => .ok []
  | [_] => .error .invalidHex
  | hi :: lo :: rest =>
    match hexDigitVal hi, hexDigitVal lo, hexDecodeChars rest with
    | .ok h, .ok l, .ok tail => .ok ((h * 16 + l) :: tail)
    | .error e, _, _ => .error e
    | _, .error e, _ => .error e
    | _, _, .error e => .error e

/-- Modelled from the spec: hex decoding of the quote string. -/
def hexDecode (s : String) : Except DecodeError (List Nat) :=
  hexDecodeChars s.data

/-- `parse_quote`: hex-decode the input string, then decode the quote bytes. -/
def parse_quote (parse_many : ParseMany) (quote_str : String) :
    Except DecodeError ParsedV3QuoteStruct :=
  match hexDecode quote_str with
  | .error e => .error e
  | .ok quote_bytes => parse_quote_bytes parse_many quote_bytes

/-- The declared QE auth-data payload size read at `[576,578)` of the
auth-data section. -/
def pdsOf (q : List Nat) : Nat := leSpec (seg q 576 578)

/-- The declared certificate-bundle size read at the running offset
`578 + parsedDataSize + 2` of the auth-data section. -/
def cdsOf (q : List Nat) : Nat :=
  leSpec (seg q (578 + pdsOf q + 2) (578 + pdsOf q + 6))

/-- The auth-data section overruns its buffer: some slice computed from the
declared length fields extends past the end. -/
def authDataOverrun (q : List Nat) : Prop :=
  q.length < 578 + pdsOf q + 6 + cdsOf q

/-- The `EnclaveReport` built from the fixed offset table of
`parse_quote_enclave_report` (with the two `as u16` narrowings). -/
def mkEnclaveReport (q : List Nat) : EnclaveReport :=
  { cpuSvn := seg q 0 16
  , miscSelect := seg q 16 20
  , reserved1 := seg q 20 48
  , attributes := seg q 48 64
  , mrEnclave := seg q 64 96
  , reserved2 := seg q 96 128
  , mrSigner := seg q 128 160
  , reserved3 := seg q 160 256
  , isvProdId := leSpec (seg q 256 258) % 65536
  , isvSvn := leSpec (seg q 258 260) % 65536
  , reserved4 := seg q 260 320
  , reportData := seg q 320 384 }

theorem leGo_eq (l : List Nat) : ∀ i, leGo i l = 256 ^ i * leSpec l := by
  induction l with
  | nil => intro i; simp [leGo, leSpec]
  | cons b t ih =>
    intro i
    have h16 : (16 : ℕ) ^ (2 * i) = 256 ^ i := by
      rw [pow_mul]; norm_num
    have h16s : (16 : ℕ) ^ (2 * i + 1) = 256 ^ i * 16 := by
      rw [pow_succ, h16]
    have hb : b % 16 + 16 * (b / 16) = b := Nat.mod_add_div b 16
    simp only [leGo, leSpec, ih (i + 1), h16, h16s, pow_succ]
    conv_rhs => rw [← hb]
    ring

theorem leSpec_lt (l : List Nat) (hb : ∀ b ∈ l, b < 256) :
    leSpec l < 256 ^ l.length := by
  induction l with
  | nil => simp [leSpec]
  | cons b t ih =>
    have hbt : ∀ x ∈ t, x < 256 := fun x hx => hb x (List.mem_cons_of_mem b hx)
    have hb0 : b < 256 := hb b (List.mem_cons_self b t)
    have ht := ih hbt
    simp only [leSpec, List.length_cons, pow_succ]
    have h2 : 256 * (leSpec t + 1) ≤ 256 * 256 ^ t.length :=
      Nat.mul_le_mul_left 256 ht
    omega

theorem seg_length (q : List Nat) (a b : Nat) :
    (seg q a b).length = min (b - a) (q.length - a) := by
  simp [seg]

theorem seg_subset (q : List Nat) (a b : Nat) :
    ∀ x ∈ seg q a b, x ∈ q := by
  intro x hx
  exact (((q.drop a).take_sublist (b - a)).trans (q.drop_sublist a)).mem hx

theorem leSpec_seg_lt (q : List Nat) (a b k : Nat) (hb : ∀ x ∈ q, x < 256)
    (hw : b - a ≤ k) : leSpec (seg q a b) < 256 ^ k := by
  have h1 : ∀ x ∈ seg q a b, x < 256 := fun x hx => hb x (seg_subset q a b x hx)
  calc leSpec (seg q a b) < 256 ^ (seg q a b).length := leSpec_lt _ h1
    _ ≤ 256 ^ k := Nat.pow_le_pow_right (by norm_num) (by rw [seg_length]; omega)

theorem led_ok (l : List Nat) (h : l.length ≤ 8) :
    little_endian_decode l = .ok (leSpec l) := by
  unfold little_endian_decode
  rw [if_pos h, leGo_eq l 0]
  norm_num

theorem led_seg (q : List Nat) (a b : Nat) (h : b - a ≤ 8) :
    little_endian_decode (seg q a b) = .ok (leSpec (seg q a b)) :=
  led_ok _ (by rw [seg_length]; omega)

theorem seg_take (q : List Nat) (a b k : Nat) (h : b ≤ k) :
    seg (q.take k) a b = seg q a b := by
  unfold seg
  rw [List.drop_take, List.take_take]
  congr 1
  omega

theorem pqh_ok (q : List Nat) (h : 48 < q.length) :
    parse_quote_header q =
      .ok ⟨seg q 0 2, seg q 2 4, seg q 4 8, seg q 8 10, seg q 10 12,
           seg q 12 28, seg q 28 48⟩ := by
  unfold parse_quote_header
  rw [if_pos h]

theorem pqh_err (q : List Nat) (h : ¬ 48 < q.length) :
    parse_quote_header q = .error .truncatedInput := by
  unfold parse_quote_header
  rw [if_neg h]

theorem per_eq (q : List Nat) (h : 384 ≤ q.length) :
    parse_quote_enclave_report q = .ok (mkEnclaveReport q) := by
  unfold parse_quote_enclave_report
  rw [if_pos h]
  simp only [led_seg q 256 258 (by norm_num), led_seg q 258 260 (by norm_num)]
  rfl

theorem pccb_error (pm : ParseMany) (b : List Nat) (e : DecodeError)
    (h : parse_cerification_chain_bytes pm b = .error e) :
    e = .certificateChainError := by
  unfold parse_cerification_chain_bytes at h
  split at h
  · injection h with h2
    exact h2.symm
  · split at h
    · exact Except.noConfusion h
    · injection h with h2
      exact h2.symm

theorem pqad_eq (pm : ParseMany) (q : List Nat) :
    parse_quote_auth_data pm q =
      if 578 + leSpec (seg q 576 578) + 6 +
          leSpec (seg q (578 + leSpec (seg q 576 578) + 2)
            (578 + leSpec (seg q 576 578) + 6)) ≤ q.length then
        match parse_cerification_chain_bytes pm
            (seg q (578 + leSpec (seg q 576 578) + 6)
              (578 + leSpec (seg q 576 578) + 6 +
                leSpec (seg q (578 + leSpec (seg q 576 578) + 2)
                  (578 + leSpec (seg q 576 578) + 6)))) with
        | .error e => .error e
        | .ok arr =>
          .ok { ecdsa256BitSignature := seg q 0 64
              , ecdsaAttestationKey := seg q 64 128
              , pckSignedQeReport := mkEnclaveReport (seg q 128 512)
              , qeReportSignature := seg q 512 576
              , qeAuthData :=
                  { parsedDataSize := leSpec (seg q 576 578) % 65536
                  , data := seg q 578 (578 + leSpec (seg q 576 578)) }
              , certification :=
                  { certType := leSpec (seg q (578 + leSpec (seg q 576 578))
                      (578 + leSpec (seg q 576 578) + 2)) % 65536
                  , certDataSize := leSpec (seg q (578 + leSpec (seg q 576 578) + 2)
                      (578 + leSpec (seg q 576 578) + 6)) % 4294967296
                  , decodedCertDataArray := arr } }
      else .error .truncatedInput := by
  unfold parse_quote_auth_data
  by_cases h1 : 578 ≤ q.length
  · rw [if_pos h1]
    simp only [led_seg q 576 578 (by norm_num)]
    set p := leSpec (seg q 576 578) with hp
    by_cases h2 : 578 + p ≤ q.length
    · rw [if_pos h2]
      by_cases h3 : 578 + p + 2 ≤ q.length
      · rw [if_pos h3]
        simp only [led_seg q (578 + p) (578 + p + 2) (by omega)]
        by_cases h4 : 578 + p + 6 ≤ q.length
        · rw [if_pos h4]
          simp only [led_seg q (578 + p + 2) (578 + p + 6) (by omega)]
          set c := leSpec (seg q (578 + p + 2) (578 + p + 6)) with hc
          by_cases h5 : 578 + p + 6 + c ≤ q.length
          · rw [if_pos h5, if_pos h5]
            simp only [per_eq (seg q 128 512)
              (by rw [seg_length]; omega)]
          · rw [if_neg h5, if_neg h5]
        · rw [if_neg h4, if_neg (by omega)]
      · rw [if_neg h3, if_neg (by omega)]
    · rw [if_neg h2, if_neg (by omega)]
  · rw [if_neg h1, if_neg (by omega)]

theorem pqad_no_length_mismatch (pm : ParseMany) (q : List Nat) :
    parse_quote_auth_data pm q ≠ .error .lengthMismatch := by
  rw [pqad_eq]
  split
  · split
    · next e heq =>
      have he := pccb_error pm _ e heq
      subst he
      simp
    · next arr heq => simp
  · simp

theorem pqad_overrun (pm : ParseMany) (q : List Nat) (h : authDataOverrun q) :
    parse_quote_auth_data pm q = .error .truncatedInput := by
  rw [pqad_eq]
  rw [if_neg (by unfold authDataOverrun cdsOf pdsOf at h; omega)]

theorem pqb_trunc (pm : ParseMany) (q : List Nat) (h : q.length < 436) :
    parse_quote_bytes pm q = .error .truncatedInput := by
  unfold parse_quote_bytes
  by_cases h48 : 48 < q.length
  · simp only [pqh_ok q h48]
    by_cases h432 : 432 ≤ q.length
    · rw [if_pos h432]
      simp only [per_eq (seg q 48 432) (by rw [seg_length]; omega)]
      rw [if_neg (by omega)]
    · rw [if_neg h432]
  · simp only [pqh_err q h48]

theorem pqb_eq (pm : ParseMany) (q : List Nat) (h : 436 ≤ q.length) :
    parse_quote_bytes pm q =
      if q.length - 436 = leSpec (seg q 432 436) then
        match parse_quote_auth_data pm (q.drop 436) with
        | .error e => .error e
        | .ok v3 =>
          .ok { header := ⟨seg q 0 2, seg q 2 4, seg q 4 8, seg q 8 10, seg q 10 12,
                           seg q 12 28, seg q 28 48⟩
              , localEnclaveReport := mkEnclaveReport (seg q 48 432)
              , v3AuthData := v3 }
      else .error .lengthMismatch := by
  unfold parse_quote_bytes
  simp only [pqh_ok q (by omega)]
  rw [if_pos (by omega : 432 ≤ q.length)]
  simp only [per_eq (seg q 48 432) (by rw [seg_length]; omega)]
  rw [if_pos h]
  simp only [led_seg q 432 436 (by norm_num)]

/-- C1: for every byte slice of length at most 8, `little_endian_decode`
returns the standard little-endian interpretation of the slice (the sum of
`byte[i] * 256 ^ i`, byte at index 0 least significant). -/
theorem little_endian_decode_le_spec (l : List Nat) (h : l.length ≤ 8) :
    little_endian_decode l = .ok (leSpec l) :=
  led_ok l h

/-- C1 witness: decoding the two-byte slice `[0x01, 0x02]` yields `513`. -/
theorem little_endian_decode_le_spec_witness :
    little_endian_decode [1, 2] = .ok 513 :=
  little_endian_decode_le_spec [1, 2] (by decide)

/-- C10: for byte slices of length `n ≤ 8` with bytes below 256, the
little-endian reader's value is strictly below `256 ^ n`; in particular on
2-byte windows the value is below `2 ^ 16` and on 4-byte windows below
`2 ^ 32`, so the `as u16` / `as u32` narrowing casts (`% 65536` /
`% 4294967296`) never truncate bits. -/
theorem little_endian_decode_bounds (l : List Nat) (h8 : l.length ≤ 8)
    (hb : ∀ b ∈ l, b < 256) :
    little_endian_decode l = .ok (leSpec l) ∧ leSpec l < 256 ^ l.length ∧
      (l.length ≤ 2 → leSpec l % 65536 = leSpec l) ∧
      (l.length ≤ 4 → leSpec l % 4294967296 = leSpec l) := by
  refine ⟨led_ok l h8, leSpec_lt l hb, ?_, ?_⟩
  · intro h2
    refine Nat.mod_eq_of_lt (lt_of_lt_of_le (leSpec_lt l hb) ?_)
    calc 256 ^ l.length ≤ 256 ^ 2 := Nat.pow_le_pow_right (by norm_num) h2
      _ ≤ 65536 := by norm_num
  · intro h4
    refine Nat.mod_eq_of_lt (lt_of_lt_of_le (leSpec_lt l hb) ?_)
    calc 256 ^ l.length ≤ 256 ^ 4 := Nat.pow_le_pow_right (by norm_num) h4
      _ ≤ 4294967296 := by norm_num

/-- C10 witness: the bound and the no-truncation facts at the concrete
two-byte window `[0xff, 0xff]`. -/
theorem little_endian_decode_bounds_witness :
    little_endian_decode [255, 255] = .ok (leSpec [255, 255]) ∧
      leSpec [255, 255] < 256 ^ ([255, 255] : List Nat).length ∧
      (([255, 255] : List Nat).length ≤ 2 →
        leSpec [255, 255] % 65536 = leSpec [255, 255]) ∧
      (([255, 255] : List Nat).length ≤ 4 →
        leSpec [255, 255] % 4294967296 = leSpec [255, 255]) :=
  little_endian_decode_bounds [255, 255] (by decide) (by decide)

/-- C5: the certificate chain extractor fails with `certificateChainError`
whenever the PEM parser yields a block count other than 3, and on exactly
three parsed blocks returns their base64-decoded contents in input order. -/
theorem parse_cerification_chain_bytes_spec (pm : ParseMany) (bytes : List Nat)
    (pems : List Pem) (h : pm bytes = .ok pems) :
    (pems.length ≠ 3 →
      parse_cerification_chain_bytes pm bytes = .error .certificateChainError) ∧
    ∀ p1 p2 p3, pems = [p1, p2, p3] →
      parse_cerification_chain_bytes pm bytes =
        .ok [p1.contents, p2.contents, p3.contents] := by
  unfold parse_cerification_chain_bytes
  simp only [h]
  constructor
  · intro h3
    rw [if_neg h3]
  · rintro p1 p2 p3 rfl
    simp

/-- C5 witness: a parser producing exactly three blocks yields the three
decoded certificates in order. -/
theorem parse_cerification_chain_bytes_spec_witness :
    parse_cerification_chain_bytes
        (fun _ => Except.ok [⟨[1]⟩, ⟨[2]⟩, ⟨[3]⟩]) [] =
      Except.ok [[1], [2], [3]] :=
  (parse_cerification_chain_bytes_spec _ [] _ rfl).2 ⟨[1]⟩ ⟨[2]⟩ ⟨[3]⟩ rfl

/-- C7 (code bug evaluation): the header decoder rejects an input of exactly
48 bytes, because the source asserts `quote_bytes.len() > 48` although its
own assert message and the spec require only "at least 48". -/
theorem parse_quote_header_rejects_exactly_48 :
    parse_quote_header (List.replicate 48 0) = .error .truncatedInput :=
  pqh_err _ (by rw [List.length_replicate]; omega)

/-- C8 counterexample: a 385-byte input does not have length 384, yet the
enclave report decoder succeeds on it instead of failing with
`truncatedInput`. -/
theorem parse_quote_enclave_report_385_ok :
    ((List.replicate 385 0 : List Nat).length ≠ 384) ∧
      parse_quote_enclave_report (List.replicate 385 0) ≠
        Except.error DecodeError.truncatedInput := by
  constructor
  · rw [List.length_replicate]
    omega
  · rw [per_eq _ (by rw [List.length_replicate]; omega)]
    intro hc
    exact Except.noConfusion hc

/-- C8 amended: the enclave report decoder fails with `truncatedInput`
exactly on inputs shorter than 384 bytes; on inputs of at least 384 bytes it
succeeds, and uses only the first 384 bytes of its input. -/
theorem parse_quote_enclave_report_length_behavior (q : List Nat) :
    (q.length < 384 → parse_quote_enclave_report q = .error .truncatedInput) ∧
    (384 ≤ q.length →
      parse_quote_enclave_report q = parse_quote_enclave_report (q.take 384) ∧
      ∃ r, parse_quote_enclave_report q = .ok r) := by
  constructor
  · intro h
    unfold parse_quote_enclave_report
    rw [if_neg (by omega)]
  · intro h
    have htk : 384 ≤ (q.take 384).length := by
      rw [List.length_take]
      omega
    have hmk : mkEnclaveReport (q.take 384) = mkEnclaveReport q := by
      unfold mkEnclaveReport
      rw [seg_take q 0 16 384 (by norm_num), seg_take q 16 20 384 (by norm_num),
        seg_take q 20 48 384 (by norm_num), seg_take q 48 64 384 (by norm_num),
        seg_take q 64 96 384 (by norm_num), seg_take q 96 128 384 (by norm_num),
        seg_take q 128 160 384 (by norm_num), seg_take q 160 256 384 (by norm_num),
        seg_take q 256 258 384 (by norm_num), seg_take q 258 260 384 (by norm_num),
        seg_take q 260 320 384 (by norm_num), seg_take q 320 384 384 (by norm_num)]
    refine ⟨?_, ⟨mkEnclaveReport q, per_eq q h⟩⟩
    rw [per_eq q h, per_eq (q.take 384) htk, hmk]

/-- C8 amended witness: a 100-byte input fails with `truncatedInput`. -/
theorem parse_quote_enclave_report_length_behavior_witness :
    parse_quote_enclave_report (List.replicate 100 0) =
      .error .truncatedInput :=
  (parse_quote_enclave_report_length_behavior (List.replicate 100 0)).1
    (by rw [List.length_replicate]; omega)

/-- C9: the quote decoder is deterministic — two invocations on the same
input hex string (with the same PEM parser) yield structurally equal
results; the decoder is a pure function with no hidden state. -/
theorem parse_quote_deterministic (pm : ParseMany) (s : String)
    (r₁ r₂ : Except DecodeError ParsedV3QuoteStruct)
    (h₁ : parse_quote pm s = r₁) (h₂ : parse_quote pm s = r₂) : r₁ = r₂ :=
  h₁.symm.trans h₂

/-- C9 witness: both invocations on the non-hex string produce the same
`invalidHex` failure. -/
theorem parse_quote_deterministic_witness :
    parse_quote (fun _ => Except.ok ([] : List Pem)) "zz" =
      Except.error DecodeError.invalidHex :=
  parse_quote_deterministic _ _ _ _ rfl (by rfl)

/-- C4: on a 384-byte input of real bytes (below 256), the enclave report
decoder returns exactly the slices of the fixed offset table, with only
`isvProdId` and `isvSvn` integer-decoded (as unsigned 16-bit little-endian
values, undamaged by the `as u16` narrowing). -/
theorem parse_quote_enclave_report_fields (q : List Nat) (hlen : q.length = 384)
    (hb : ∀ b ∈ q, b < 256) :
    parse_quote_enclave_report q =
      .ok { cpuSvn := seg q 0 16
          , miscSelect := seg q 16 20
          , reserved1 := seg q 20 48
          , attributes := seg q 48 64
          , mrEnclave := seg q 64 96
          , reserved2 := seg q 96 128
          , mrSigner := seg q 128 160
          , reserved3 := seg q 160 256
          , isvProdId := leSpec (seg q 256 258)
          , isvSvn := leSpec (seg q 258 260)
          , reserved4 := seg q 260 320
          , reportData := seg q 320 384 } := by
  have h1 : leSpec (seg q 256 258) % 65536 = leSpec (seg q 256 258) :=
    Nat.mod_eq_of_lt (lt_of_lt_of_le
      (leSpec_seg_lt q 256 258 2 hb (by norm_num)) (by norm_num))
  have h2 : leSpec (seg q 258 260) % 65536 = leSpec (seg q 258 260) :=
    Nat.mod_eq_of_lt (lt_of_lt_of_le
      (leSpec_seg_lt q 258 260 2 hb (by norm_num)) (by norm_num))
  rw [per_eq q (by omega)]
  unfold mkEnclaveReport
  rw [h1, h2]

/-- C4 witness: the field equalities at the all-zero 384-byte input. -/
theorem parse_quote_enclave_report_fields_witness :
    parse_quote_enclave_report (List.replicate 384 0) =
      .ok { cpuSvn := seg (List.replicate 384 0) 0 16
          , miscSelect := seg (List.replicate 384 0) 16 20
          , reserved1 := seg (List.replicate 384 0) 20 48
          , attributes := seg (List.replicate 384 0) 48 64
          , mrEnclave := seg (List.replicate 384 0) 64 96
          , reserved2 := seg (List.replicate 384 0) 96 128
          , mrSigner := seg (List.replicate 384 0) 128 160
          , reserved3 := seg (List.replicate 384 0) 160 256
          , isvProdId := leSpec (seg (List.replicate 384 0) 256 258)
          , isvSvn := leSpec (seg (List.replicate 384 0) 258 260)
          , reserved4 := seg (List.replicate 384 0) 260 320
          , reportData := seg (List.replicate 384 0) 320 384 } :=
  parse_quote_enclave_report_fields (List.replicate 384 0)
    (by rw [List.length_replicate])
    (fun b hb => by rw [List.eq_of_mem_replicate hb]; omega)

/-- C2: on every hex-decoded buffer extending past offset 436, the quote
decoder fails with `lengthMismatch` precisely when the 4-byte little-endian
integer at `[432,436)` differs from the number of bytes remaining after
offset 436; on a mismatch no `ParsedV3QuoteStruct` is produced. -/
theorem parse_quote_length_mismatch_iff (pm : ParseMany) (q : List Nat)
    (h : 436 ≤ q.length) :
    (parse_quote_bytes pm q = .error .lengthMismatch ↔
      leSpec (seg q 432 436) ≠ q.length - 436) := by
  rw [pqb_eq pm q h]
  by_cases hc : q.length - 436 = leSpec (seg q 432 436)
  · rw [if_pos hc]
    constructor
    · intro hr
      exfalso
      cases hcc : parse_quote_auth_data pm (q.drop 436) with
      | error e =>
        rw [hcc] at hr
        simp only [] at hr
        injection hr with hre
        exact pqad_no_length_mismatch pm (q.drop 436) (by rw [hcc, hre])
      | ok v3 =>
        rw [hcc] at hr
        simp at hr
    · intro hne
      exact absurd hc.symm hne
  · rw [if_neg hc]
    constructor
    · intro _
      exact fun he => hc he.symm
    · intro _
      rfl

set_option maxRecDepth 8000 in
/-- C2 witness: a 436-byte buffer of `0x01` bytes declares an auth-data size
of `0x01010101` while zero bytes remain, so decoding fails with
`lengthMismatch`. -/
theorem parse_quote_length_mismatch_iff_witness :
    parse_quote_bytes (fun _ => Except.ok ([] : List Pem))
        (List.replicate 436 1) = .error .lengthMismatch :=
  (parse_quote_length_mismatch_iff _ _
      (by rw [List.length_replicate])).mpr (by decide)

/-- C6: whenever a computed slice would exceed the available buffer — a quote
shorter than the fixed sections, or declared `parsedDataSize` / `certDataSize`
values that overrun the bytes remaining after offset 436 — the decoder fails
with `truncatedInput` and returns no result. -/
theorem parse_quote_truncated (pm : ParseMany) (q : List Nat)
    (h : q.length < 436 ∨
      (436 ≤ q.length ∧ leSpec (seg q 432 436) = q.length - 436 ∧
        authDataOverrun (q.drop 436))) :
    parse_quote_bytes pm q = .error .truncatedInput := by
  rcases h with h | ⟨h1, h2, h3⟩
  · exact pqb_trunc pm q h
  · rw [pqb_eq pm q h1, if_pos h2.symm, pqad_overrun pm _ h3]

/-- C6 witness: the spec's end-to-end scenario — a quote truncated to 400
bytes fails with `truncatedInput`. -/
theorem parse_quote_truncated_witness :
    parse_quote_bytes (fun _ => Except.ok ([] : List Pem))
        (List.replicate 400 0) = .error .truncatedInput :=
  parse_quote_truncated _ _ (Or.inl (by rw [List.length_replicate]; omega))

/-- C3: whenever the auth-data decoder succeeds on a byte slice of real bytes,
its result is exactly the layout of §4.5: signature `[0,64)`, attestation key
`[64,128)`, the enclave-report decode of `[128,512)`, QE report signature
`[512,576)`, `parsedDataSize` as the little-endian u16 at `[576,578)`, the QE
auth payload `[578, 578+parsedDataSize)`, then the 2-byte `certType`, 4-byte
`certDataSize`, and exactly `certDataSize` bundle bytes handed to the
certificate-chain extractor. -/
theorem parse_quote_auth_data_fields (pm : ParseMany) (q : List Nat)
    (r : ECDSAQuoteV3AuthData) (hb : ∀ b ∈ q, b < 256)
    (h : parse_quote_auth_data pm q = .ok r) :
    r.ecdsa256BitSignature = seg q 0 64 ∧
    r.ecdsaAttestationKey = seg q 64 128 ∧
    parse_quote_enclave_report (seg q 128 512) = .ok r.pckSignedQeReport ∧
    r.qeReportSignature = seg q 512 576 ∧
    r.qeAuthData.parsedDataSize = leSpec (seg q 576 578) ∧
    r.qeAuthData.data = seg q 578 (578 + r.qeAuthData.parsedDataSize) ∧
    r.certification.certType =
      leSpec (seg q (578 + r.qeAuthData.parsedDataSize)
        (578 + r.qeAuthData.parsedDataSize + 2)) ∧
    r.certification.certDataSize =
      leSpec (seg q (578 + r.qeAuthData.parsedDataSize + 2)
        (578 + r.qeAuthData.parsedDataSize + 6)) ∧
    parse_cerification_chain_bytes pm
        (seg q (578 + r.qeAuthData.parsedDataSize + 6)
          (578 + r.qeAuthData.parsedDataSize + 6 +
            r.certification.certDataSize)) =
      .ok r.certification.decodedCertDataArray := by
  have hpd : leSpec (seg q 576 578) % 65536 = leSpec (seg q 576 578) :=
    Nat.mod_eq_of_lt (lt_of_lt_of_le
      (leSpec_seg_lt q 576 578 2 hb (by norm_num)) (by norm_num))
  have hct : leSpec (seg q (578 + leSpec (seg q 576 578))
        (578 + leSpec (seg q 576 578) + 2)) % 65536 =
      leSpec (seg q (578 + leSpec (seg q 576 578))
        (578 + leSpec (seg q 576 578) + 2)) :=
    Nat.mod_eq_of_lt (lt_of_lt_of_le
      (leSpec_seg_lt q _ _ 2 hb (by omega)) (by norm_num))
  have hcd : leSpec (seg q (578 + leSpec (seg q 576 578) + 2)
        (578 + leSpec (seg q 576 578) + 6)) % 4294967296 =
      leSpec (seg q (578 + leSpec (seg q 576 578) + 2)
        (578 + leSpec (seg q 576 578) + 6)) :=
    Nat.mod_eq_of_lt (lt_of_lt_of_le
      (leSpec_seg_lt q _ _ 4 hb (by omega)) (by norm_num))
  rw [pqad_eq] at h
  split at h
  next hcond =>
    split at h
    next e heq => exact Except.noConfusion h
    next arr heq =>
      injection h with h'
      subst h'
      refine ⟨rfl, rfl, ?_, rfl, hpd, ?_, ?_, ?_, ?_⟩
      · exact per_eq _ (by rw [seg_length]; omega)
      · simp only [hpd]
      · simp only [hpd, hct]
      · simp only [hpd, hcd]
      · simp only [hpd, hcd]
        exact heq
  next hcond => exact Except.noConfusion h

def c3Q : List Nat := List.replicate 584 0

def c3pm : ParseMany := fun _ => Except.ok [⟨[]⟩, ⟨[]⟩, ⟨[]⟩]

def c3r : ECDSAQuoteV3AuthData :=
  { ecdsa256BitSignature := List.replicate 64 0
  , ecdsaAttestationKey := List.replicate 64 0
  , pckSignedQeReport := mkEnclaveReport (List.replicate 384 0)
  , qeReportSignature := List.replicate 64 0
  , qeAuthData := ⟨0, []⟩
  , certification := ⟨0, 0, [[], [], []]⟩ }

set_option maxRecDepth 8000 in
/-- C3 witness: the field equalities at a concrete 584-byte all-zero
auth-data section with an empty QE auth payload and empty bundle, with a PEM
parser producing three empty certificates. -/
theorem parse_quote_auth_data_fields_witness :
    c3r.ecdsa256BitSignature = seg c3Q 0 64 ∧
    c3r.ecdsaAttestationKey = seg c3Q 64 128 ∧
    parse_quote_enclave_report (seg c3Q 128 512) = .ok c3r.pckSignedQeReport ∧
    c3r.qeReportSignature = seg c3Q 512 576 ∧
    c3r.qeAuthData.parsedDataSize = leSpec (seg c3Q 576 578) ∧
    c3r.qeAuthData.data = seg c3Q 578 (578 + c3r.qeAuthData.parsedDataSize) ∧
    c3r.certification.certType =
      leSpec (seg c3Q (578 + c3r.qeAuthData.parsedDataSize)
        (578 + c3r.qeAuthData.parsedDataSize + 2)) ∧
    c3r.certification.certDataSize =
      leSpec (seg c3Q (578 + c3r.qeAuthData.parsedDataSize + 2)
        (578 + c3r.qeAuthData.parsedDataSize + 6)) ∧
    parse_cerification_chain_bytes c3pm
        (seg c3Q (578 + c3r.qeAuthData.parsedDataSize + 6)
          (578 + c3r.qeAuthData.parsedDataSize + 6 +
            c3r.certification.certDataSize)) =
      .ok c3r.certification.decodedCertDataArray :=
  parse_quote_auth_data_fields c3pm c3Q c3r
    (fun b hb => by
      rw [List.eq_of_mem_replicate (show b ∈ List.replicate 584 0 from hb)]
      omega)
    (by decide)

end SgxQuote
